import Mathlib

/-
Verification of the inference-and-monitoring service of the MLOps assignment
repository (Cats vs Dogs / digit classifier, FastAPI service).

Shallow embedding conventions:
* machine reals (sigmoid outputs, probabilities, confidences, latencies) are
  modelled as exact rationals `ℚ`;
* fallible Python code (raised exceptions) is modelled with `Except`/`Option`;
* the HTTP layer is modelled as total functions from request data and service
  state to a response value, so that "the handler returns a response rather
  than crashing the process" is totality of the embedding.
-/

/-! ## Binary predictor (`src/Assignment 2/src/inference.py`) -/

/-- Result dictionary returned by the binary `ModelInference.predict`:
prediction, label, the two reported probabilities and the confidence. -/
structure BinResult where
  prediction : ℕ
  prediction_label : String
  probCat : ℚ
  probDog : ℚ
  confidence : ℚ
deriving DecidableEq

/-- Class-name list `['Cat', 'Dog']` of the binary inference handler. -/
def class_names : List String := ["Cat", "Dog"]

/-- Post-sigmoid body of the binary `ModelInference.predict`: `probability` is
the scalar `torch.sigmoid(output).item()` of the forward pass; predicted class
is `1` when it exceeds `0.5`, confidence mirrors the code's conditional, and
the probability dictionary is `\x7bCat: 1 - p, Dog: p\x7d`. -/
def binaryPredictDict (probability : ℚ) : BinResult :=
  let predicted_class : ℕ := if probability > 1/2 then 1 else 0
  let confidence := if predicted_class = 1 then probability else 1 - probability
  { prediction := predicted_class
    prediction_label := class_names.getD predicted_class ""
    probCat := 1 - probability
    probDog := probability
    confidence := confidence }

/-- Embeds `ModelInference.predict` of the binary variant: it raises
`RuntimeError("Model not loaded. Call load_model() first.")` whenever
`self.model is None` — the check runs on every call — and otherwise returns
the prediction dictionary for the sigmoid output of the forward pass. -/
def ModelInference.predict (modelLoaded : Bool) (probability : ℚ) :
    Except String BinResult :=
  if modelLoaded then .ok (binaryPredictDict probability)
  else .error "Model not loaded. Call load_model() first."

/-! ## Multi-class predictor (`src/src/inference.py`) -/

/-- Result dictionary of the multi-class `ModelInference.predict`. -/
structure MultiResult where
  prediction : ℕ
  probabilities : List ℚ
  confidence : ℚ
deriving DecidableEq

/-- Softmax over the raw output vector, as `torch.nn.functional.softmax`:
`e zᵢ / Σⱼ e zⱼ`. The exponential is abstracted as a function `e`, assumed
strictly positive in the theorems (which `exp` is); this keeps the embedding
executable while capturing exactly the normalization the code performs. -/
def softmax (e : ℚ → ℚ) (z : List ℚ) : List ℚ :=
  z.map (fun zi => e zi / (z.map e).sum)

/-- Embeds `torch.max(probabilities, 1)`: the maximal value of the list
together with the index of its first occurrence. -/
def torchMax : List ℚ → ℚ × ℕ
  | [] => (0, 0)
  | [x] => (x, 0)
  | x :: y :: t =>
    let mi := torchMax (y :: t)
    if mi.1 ≤ x then (x, 0) else (mi.1, mi.2 + 1)

/-- Post-forward-pass body of the multi-class `ModelInference.predict`:
softmax probabilities, `predicted = torch.max(probabilities, 1)` index,
confidence the corresponding maximal value. -/
def multiPredictDict (e : ℚ → ℚ) (z : List ℚ) : MultiResult :=
  let probabilities := softmax e z
  let cm := torchMax probabilities
  { prediction := cm.2
    probabilities := probabilities
    confidence := cm.1 }

/-! ## Helper lemmas -/

theorem torchMax_is_ub (l : List ℚ) : ∀ x ∈ l, x ≤ (torchMax l).1 := by
  induction l with
  | nil => intro x hx; cases hx
  | cons a t ih =>
    cases t with
    | nil =>
      intro x hx
      rcases List.mem_singleton.mp hx with rfl
      simp [torchMax]
    | cons b s =>
      intro x hx
      rcases List.mem_cons.mp hx with rfl | hx2
      · by_cases h : (torchMax (b :: s)).1 ≤ x <;> simp [torchMax, h]
        linarith [le_of_not_le h]
      · have hx3 := ih x hx2
        by_cases h : (torchMax (b :: s)).1 ≤ a <;> simp [torchMax, h]
        · exact le_trans hx3 h
        · exact hx3

theorem torchMax_get (l : List ℚ) (h : l ≠ []) :
    l[(torchMax l).2]? = some (torchMax l).1 := by
  induction l with
  | nil => exact absurd rfl h
  | cons a t ih =>
    cases t with
    | nil => simp [torchMax]
    | cons b s =>
      by_cases hc : (torchMax (b :: s)).1 ≤ a
      · simp [torchMax, hc]
      · have := ih (by simp)
        simp [torchMax, hc, this]

theorem sum_map_div (l : List ℚ) (f : ℚ → ℚ) (a : ℚ) :
    (l.map (fun x => f x / a)).sum = (l.map f).sum / a := by
  induction l with
  | nil => simp
  | cons x t ih => simp [ih, add_div]

/-! ## HTTP layer (`src/Assignment 2/api/main.py`) -/

/-- HTTP outcome of an endpoint call: a successful JSON body, or an
`HTTPException(status_code, detail)` turned into an error response. These
handler embeddings are total functions, modelling that every request gets a
response and the process never terminates on a handled failure. -/
inductive HttpResp (A : Type) where
  | ok (body : A)
  | err (status : Nat) (detail : String)
deriving DecidableEq

/-- Body of a successful prediction response (`PredictionResponse`). -/
structure PredictionResponse where
  prediction : ℕ
  prediction_label : String
  probCat : ℚ
  probDog : ℚ
  confidence : ℚ
  inference_time_ms : ℚ
deriving DecidableEq

/-- Body of the `GET /health` response (`HealthResponse`). -/
structure HealthResponse where
  status : String
  model_loaded : Bool
  timestamp : String
  version : String
deriving DecidableEq

/-- Embeds the `health_check` handler: status is `healthy` when the model is
loaded and `degraded` otherwise; `now` is the wall-clock timestamp string. -/
def health_check (modelLoaded : Bool) (now : String) : HealthResponse :=
  { status := if modelLoaded then "healthy" else "degraded"
    model_loaded := modelLoaded
    timestamp := now
    version := "2.0.0" }

/-- One record of `logs/predictions.jsonl`, as written by
`log_prediction_to_file` (timestamp omitted here and carried separately where
it matters). -/
structure LogEntry where
  prediction : ℤ
  prediction_label : String
  confidence : ℚ
  inference_time_ms : ℚ
deriving DecidableEq

/-- File-system state seen by the prediction logger: `writable` models
whether the append in `log_prediction_to_file` succeeds, `log` is the current
content of `logs/predictions.jsonl` as a list of records. -/
structure LogFS where
  writable : Bool
  log : List LogEntry
deriving DecidableEq

/-- Embeds `log_prediction_to_file`: appends one record to the log file; any
exception raised by the write is caught (`except Exception`) and only
reported through `logger.error`, leaving the file unchanged. -/
def log_prediction_to_file (fs : LogFS) (e : LogEntry) : LogFS :=
  if fs.writable then { fs with log := fs.log ++ [e] } else fs

/-- Embeds the `POST /predict` handler. `input` is the outcome of the
handler's `try` block up to the forward pass: `.ok p` carries the sigmoid
probability of the loaded model on the decoded upload, `.error msg` an
exception raised while reading or decoding the file or during inference.
`t` is the measured `inference_time_ms`. The handler first checks the model,
answering 503; any exception in the `try` block becomes a 500; on success it
logs best-effort and returns the response built from the result. -/
def predictEndpoint (modelLoaded : Bool) (input : Except String ℚ) (t : ℚ)
    (fs : LogFS) : HttpResp PredictionResponse × LogFS :=
  if ¬ modelLoaded then
    (.err 503 "Model not loaded. Please try again later.", fs)
  else
    match input with
    | .error msg => (.err 500 ("Prediction failed: " ++ msg), fs)
    | .ok p =>
      let r := binaryPredictDict p
      let fs2 := log_prediction_to_file fs
        { prediction := (r.prediction : ℤ)
          prediction_label := r.prediction_label
          confidence := r.confidence
          inference_time_ms := t }
      (.ok { prediction := r.prediction
             prediction_label := r.prediction_label
             probCat := r.probCat
             probDog := r.probDog
             confidence := r.confidence
             inference_time_ms := t }, fs2)

/-- Embeds the `POST /predict-base64` handler, whose control flow mirrors
`predictEndpoint`: here `input` is the outcome of `base64.b64decode` plus
`Image.open` plus the forward pass, so a malformed base64 string or an
undecodable image is the `.error` case, caught by the handler's `except`
block and returned as a 500 response. -/
def predictBase64Endpoint (modelLoaded : Bool) (input : Except String ℚ)
    (t : ℚ) (fs : LogFS) : HttpResp PredictionResponse × LogFS :=
  if ¬ modelLoaded then
    (.err 503 "Model not loaded. Please try again later.", fs)
  else
    match input with
    | .error msg => (.err 500 ("Prediction failed: " ++ msg), fs)
    | .ok p =>
      let r := binaryPredictDict p
      let fs2 := log_prediction_to_file fs
        { prediction := (r.prediction : ℤ)
          prediction_label := r.prediction_label
          confidence := r.confidence
          inference_time_ms := t }
      (.ok { prediction := r.prediction
             prediction_label := r.prediction_label
             probCat := r.probCat
             probDog := r.probDog
             confidence := r.confidence
             inference_time_ms := t }, fs2)

/-! ## Digit-variant request validation (modelled from the spec) -/

/-- Request image of the digit variant's `POST /predict` body: a nested
list of rows or a flat list of floats. -/
inductive DigitImage where
  | nested (rows : List (List ℚ))
  | flat (xs : List ℚ)
deriving DecidableEq

/-- Modelled from the spec: the digit-variant API module is not under `src/`
(only `tests/test_api.py` exercising it is). Per the spec, a numeric array
input must be exactly 28×28 (nested) or length 784 (flat); anything else is a
shape validation failure. -/
def digitShapeOk : DigitImage → Bool
  | .nested rows => rows.length = 28 && rows.all (fun r => r.length = 28)
  | .flat xs => xs.length = 784

/-- Modelled from the spec: the digit-variant `POST /predict` handler. Schema
validation rejects a wrong-shape array with HTTP 422 before the model-loaded
check and before any Predictor call (`result` is only consulted on the
success path); an unloaded model yields HTTP 503. -/
def digitPredictEndpoint (img : DigitImage) (modelLoaded : Bool)
    (result : MultiResult) (t : ℚ) : HttpResp (MultiResult × ℚ) :=
  if ¬ digitShapeOk img then
    .err 422 "Input image must have shape 28x28 or be a flat array of 784 values"
  else if ¬ modelLoaded then
    .err 503 "Model not loaded. Please try again later."
  else
    .ok (result, t)

/-! ## Prediction log statistics (`read_prediction_stats`, `GET /stats`) -/

/-- One line of `logs/predictions.jsonl` as seen by the stats reader: either
a record that parses as JSON and has the required keys, or a malformed line
whose processing raises inside the loop (and is skipped by the `except`). -/
inductive LogLine where
  | good (e : LogEntry)
  | bad
deriving DecidableEq

/-- Records of the lines that parse successfully, in order. -/
def goodEntries (lines : List LogLine) : List LogEntry :=
  lines.filterMap (fun l => match l with | .good e => some e | .bad => none)

/-- Aggregates computed by `read_prediction_stats` when at least one line
parsed. -/
structure Stats where
  total : ℕ
  avg_confidence : ℚ
  avg_inference_time : ℚ
  distribution : List (String × ℕ)
deriving DecidableEq

/-- Increment of the `distribution` dictionary at a key, as the code's
`distribution[pred_label] = distribution.get(pred_label, 0) + 1` (insertion
order preserved, as for a Python dict). -/
def bumpCount : List (String × ℕ) → String → List (String × ℕ)
  | [], k => [(k, 1)]
  | (k0, c) :: rest, k =>
    if k0 = k then (k0, c + 1) :: rest else (k0, c) :: bumpCount rest k

/-- Embeds `read_prediction_stats`: `none` models the empty dict returned
when the log file is absent (`file = none`) or when no line parsed; otherwise
the scan collects every parseable line, skipping malformed lines one by one,
and returns count, mean confidence, mean latency and label distribution. -/
def read_prediction_stats (file : Option (List LogLine)) : Option Stats :=
  match file with
  | none => none
  | some lines =>
    let entries := goodEntries lines
    if entries.isEmpty then none
    else some
      { total := entries.length
        avg_confidence := (entries.map (fun e => e.confidence)).sum / entries.length
        avg_inference_time := (entries.map (fun e => e.inference_time_ms)).sum / entries.length
        distribution := entries.foldl (fun d e => bumpCount d e.prediction_label) [] }

/-- Body of the `GET /stats` response. -/
structure StatsResponse where
  total_predictions : ℕ
  average_confidence : ℚ
  average_inference_time_ms : ℚ
  class_distribution : List (String × ℕ)
deriving DecidableEq

/-- Embeds the `GET /stats` handler: the `.get(key, default)` calls turn the
empty stats dict into zeroed aggregates rather than an error. -/
def get_stats (file : Option (List LogLine)) : StatsResponse :=
  match read_prediction_stats file with
  | none => { total_predictions := 0
              average_confidence := 0
              average_inference_time_ms := 0
              class_distribution := [] }
  | some s => { total_predictions := s.total
                average_confidence := s.avg_confidence
                average_inference_time_ms := s.avg_inference_time
                class_distribution := s.distribution }

/-! ## JSON round-trip of a log record -/

/-- JSON scalar values appearing in a log record. -/
inductive JVal where
  | jstr (s : String)
  | jint (n : ℤ)
  | jnum (q : ℚ)
deriving DecidableEq

/-- JSON object written by `log_prediction_to_file` for one prediction
(the `log_entry` dict passed to `json.dumps`, field for field). -/
def logEntryJson (ts : String) (e : LogEntry) : List (String × JVal) :=
  [("timestamp", .jstr ts),
   ("prediction", .jint e.prediction),
   ("prediction_label", .jstr e.prediction_label),
   ("confidence", .jnum e.confidence),
   ("inference_time_ms", .jnum e.inference_time_ms)]

/-- Key lookup in a parsed JSON object. -/
def jlookup (o : List (String × JVal)) (k : String) : Option JVal :=
  match o with
  | [] => none
  | (k0, v) :: rest => if k0 = k then some v else jlookup rest k

/-- Field extraction performed by `read_prediction_stats` on one parsed line:
`prediction` and `confidence` and `inference_time_ms` are required (a missing
or mistyped key raises and the line is skipped); `prediction_label` defaults
to `str(entry["prediction"])`. -/
def readEntryFields (o : List (String × JVal)) : Option (ℤ × String × ℚ × ℚ) :=
  match jlookup o "prediction", jlookup o "confidence",
        jlookup o "inference_time_ms" with
  | some (.jint n), some (.jnum c), some (.jnum t) =>
    let lbl := match jlookup o "prediction_label" with
      | some (.jstr s) => s
      | _ => toString n
    some (n, lbl, c, t)
  | _, _, _ => none

/-! ## Canvas-drawing preprocessing (modelled from the spec) -/

/-- Modelled from the spec: the canvas-drawing (digit) preprocessing variant
is not under `src/`. Single-channel conversion of an RGB pixel, as PIL's
`convert('L')` ITU-R 601 luma `(299 R + 587 G + 114 B) / 1000`. -/
def toGray (img : List (List (ℕ × ℕ × ℕ))) : List (List ℕ) :=
  img.map (fun row => row.map (fun p => (299 * p.1 + 587 * p.2.1 + 114 * p.2.2) / 1000))

/-- Modelled from the spec: resize of a single-channel image to 28×28
(nearest-neighbour sampling; on a well-formed 28×28 input this is the
identity). -/
def resize28 (g : List (List ℕ)) : List (List ℕ) :=
  let h := g.length
  let w := (g.headD []).length
  (List.range 28).map (fun i => (List.range 28).map (fun j =>
    (g.getD (i * h / 28) []).getD (j * w / 28) 0))

/-- Modelled from the spec: pixel-intensity inversion `255 - v` applied
before normalization (drawing surfaces are dark-on-light, the training corpus
light-on-dark). -/
def invertPix (g : List (List ℕ)) : List (List ℕ) :=
  g.map (fun row => row.map (fun v => 255 - v))

/-- Modelled from the spec: the canvas-drawing preprocessing pipeline up to
(and excluding) normalization: grayscale, resize to 28×28, invert. -/
def canvasPreprocessRaw (img : List (List (ℕ × ℕ × ℕ))) : List (List ℕ) :=
  invertPix (resize28 (toGray img))

/-- All-white 28×28 RGB input image. -/
def whiteCanvas : List (List (ℕ × ℕ × ℕ)) :=
  List.replicate 28 (List.replicate 28 (255, 255, 255))

/-! ## Pixel normalization (`normalize_pixel_values`) -/

/-- Embeds `image_array.min()`: `none` on the empty array, where numpy's
reduction raises `ValueError`. -/
def npMin : List ℚ → Option ℚ
  | [] => none
  | x :: xs => some (xs.foldl min x)

/-- Embeds `image_array.max()`: `none` on the empty array. -/
def npMax : List ℚ → Option ℚ
  | [] => none
  | x :: xs => some (xs.foldl max x)

/-- Embeds `normalize_pixel_values` over a (flattened) array of exact
rationals: if `max - min == 0` it returns `zeros_like`, otherwise it rescales
each element affinely to `[min_val, max_val]`; `none` models the exception
numpy raises when reducing the empty array. -/
def normalize_pixel_values (a : List ℚ) (min_val max_val : ℚ) :
    Option (List ℚ) :=
  match npMin a, npMax a with
  | some image_min, some image_max =>
    if image_max - image_min = 0 then some (a.map (fun _ => 0))
    else some (a.map (fun v =>
      (v - image_min) / (image_max - image_min) * (max_val - min_val) + min_val))
  | _, _ => none

/-! ## Further helper lemmas -/

theorem softmax_ne_nil (e : ℚ → ℚ) (z : List ℚ) (hz : z ≠ []) :
    softmax e z ≠ [] := by
  unfold softmax
  simpa using hz

theorem softmax_sum_eq_one (e : ℚ → ℚ) (z : List ℚ)
    (he : ∀ x, 0 < e x) (hz : z ≠ []) : (softmax e z).sum = 1 := by
  have hpos : 0 < (z.map e).sum := by
    refine List.sum_pos _ ?_ (by simpa using hz)
    intro x hx
    rcases List.mem_map.mp hx with ⟨y, _, rfl⟩
    exact he y
  unfold softmax
  rw [sum_map_div]
  exact div_self (ne_of_gt hpos)

theorem foldl_min_le_init (xs : List ℚ) (x : ℚ) : xs.foldl min x ≤ x := by
  induction xs generalizing x with
  | nil => simp
  | cons y t ih =>
    calc (y :: t).foldl min x = t.foldl min (min x y) := rfl
    _ ≤ min x y := ih _
    _ ≤ x := min_le_left _ _

theorem foldl_min_le_mem (xs : List ℚ) (x : ℚ) :
    ∀ y ∈ xs, xs.foldl min x ≤ y := by
  induction xs generalizing x with
  | nil => intro y hy; cases hy
  | cons a t ih =>
    intro y hy
    rcases List.mem_cons.mp hy with rfl | hy2
    · calc (y :: t).foldl min x = t.foldl min (min x y) := rfl
      _ ≤ min x y := foldl_min_le_init t _
      _ ≤ y := min_le_right _ _
    · exact ih (min x a) y hy2

theorem init_le_foldl_max (xs : List ℚ) (x : ℚ) : x ≤ xs.foldl max x := by
  induction xs generalizing x with
  | nil => simp
  | cons y t ih =>
    calc x ≤ max x y := le_max_left _ _
    _ ≤ t.foldl max (max x y) := ih _
    _ = (y :: t).foldl max x := rfl

theorem mem_le_foldl_max (xs : List ℚ) (x : ℚ) :
    ∀ y ∈ xs, y ≤ xs.foldl max x := by
  induction xs generalizing x with
  | nil => intro y hy; cases hy
  | cons a t ih =>
    intro y hy
    rcases List.mem_cons.mp hy with rfl | hy2
    · calc y ≤ max x y := le_max_right _ _
      _ ≤ t.foldl max (max x y) := init_le_foldl_max t _
      _ = (y :: t).foldl max x := rfl
    · exact ih (max x a) y hy2

theorem npMin_le (a : List ℚ) (mn : ℚ) (h : npMin a = some mn) :
    ∀ x ∈ a, mn ≤ x := by
  cases a with
  | nil => cases h
  | cons x xs =>
    have hmn : mn = xs.foldl min x := by
      simpa [npMin] using h.symm
    intro y hy
    rcases List.mem_cons.mp hy with rfl | hy2
    · rw [hmn]; exact foldl_min_le_init xs y
    · rw [hmn]; exact foldl_min_le_mem xs x y hy2

theorem le_npMax (a : List ℚ) (mx : ℚ) (h : npMax a = some mx) :
    ∀ x ∈ a, x ≤ mx := by
  cases a with
  | nil => cases h
  | cons x xs =>
    have hmx : mx = xs.foldl max x := by
      simpa [npMax] using h.symm
    intro y hy
    rcases List.mem_cons.mp hy with rfl | hy2
    · rw [hmx]; exact init_le_foldl_max xs y
    · rw [hmx]; exact mem_le_foldl_max xs x y hy2

/-! ## Claims -/

/-- C1: for every sigmoid output `p` of the binary model, the prediction
dictionary has predicted class `1` iff `p > 0.5` (else `0`), confidence `p`
when the predicted class is `1` and `1 - p` otherwise — which equals the
maximum of the two reported probabilities — and probability mapping
`Cat ↦ 1 - p`, `Dog ↦ p`. -/
theorem binary_predict_contract (p : ℚ) :
    (binaryPredictDict p).prediction = (if p > 1/2 then 1 else 0) ∧
    (binaryPredictDict p).probCat = 1 - p ∧
    (binaryPredictDict p).probDog = p ∧
    (binaryPredictDict p).confidence =
      (if (binaryPredictDict p).prediction = 1 then p else 1 - p) ∧
    (binaryPredictDict p).confidence =
      max (binaryPredictDict p).probCat (binaryPredictDict p).probDog ∧
    ((binaryPredictDict p).probDog > 1/2 ↔ (binaryPredictDict p).prediction = 1) := by
  by_cases h : p > 1/2
  · have hm : max (1 - p) p = p := max_eq_right (by linarith)
    simp [binaryPredictDict, class_names, h, hm]
    intro hle
    linarith
  · have hm : max (1 - p) p = 1 - p := max_eq_left (by linarith [le_of_not_lt h])
    simp [binaryPredictDict, class_names, h, hm]
    intro hlt
    linarith

/-- C3: for every binary prediction output, the two reported probabilities
sum to `1` exactly (in the exact arithmetic of this embedding,
`(1 - p) + p = 1` by construction), and the returned confidence equals the
maximum of the two reported probabilities. -/
theorem binary_probs_sum_to_one (p : ℚ) :
    (binaryPredictDict p).probCat + (binaryPredictDict p).probDog = 1 ∧
    (binaryPredictDict p).confidence =
      max (binaryPredictDict p).probCat (binaryPredictDict p).probDog := by
  constructor
  · simp [binaryPredictDict]
  · by_cases h : p > 1/2
    · have hm : max (1 - p) p = p := max_eq_right (by linarith)
      simp [binaryPredictDict, class_names, h, hm]
      intro hle
      linarith
    · have hm : max (1 - p) p = 1 - p := max_eq_left (by linarith [le_of_not_lt h])
      simp [binaryPredictDict, class_names, h, hm]
      intro hlt
      linarith

/-- C2: for every multi-class prediction output (softmax of a strictly
positive exponential over a nonempty output vector), the predicted class
indexes a maximal element of the returned probabilities (so it is the
arg-max, `q` ranging over the probabilities), and the probabilities sum to
`1` within an absolute tolerance of `1e-5` (here: exactly `1`). -/
theorem multi_predict_argmax_and_sum (e : ℚ → ℚ) (z : List ℚ) (q : ℚ)
    (he : ∀ x, 0 < e x) (hz : z ≠ [])
    (hq : q ∈ (multiPredictDict e z).probabilities) :
    (multiPredictDict e z).probabilities[(multiPredictDict e z).prediction]? =
      some (multiPredictDict e z).confidence ∧
    q ≤ (multiPredictDict e z).confidence ∧
    |(multiPredictDict e z).probabilities.sum - 1| < 1/100000 := by
  have hne : softmax e z ≠ [] := softmax_ne_nil e z hz
  refine ⟨?_, ?_, ?_⟩
  · simpa [multiPredictDict] using torchMax_get (softmax e z) hne
  · have hq2 : q ∈ softmax e z := by simpa [multiPredictDict] using hq
    simpa [multiPredictDict] using torchMax_is_ub (softmax e z) q hq2
  · have hs := softmax_sum_eq_one e z he hz
    simp [multiPredictDict, hs]

/-- Witness for C2 at the constant exponential and the output vector
`[0, 0]`, whose softmax is `[1/2, 1/2]`. -/
theorem multi_predict_argmax_and_sum_witness :
    (multiPredictDict (fun _ => 1) [0, 0]).probabilities[(multiPredictDict (fun _ => 1) [0, 0]).prediction]? =
      some (multiPredictDict (fun _ => 1) [0, 0]).confidence ∧
    (1 : ℚ)/2 ≤ (multiPredictDict (fun _ => 1) [0, 0]).confidence ∧
    |(multiPredictDict (fun _ => 1) [0, 0]).probabilities.sum - 1| < 1/100000 :=
  multi_predict_argmax_and_sum (fun _ => 1) [0, 0] (1/2)
    (fun _ => one_pos) (by simp) (by norm_num [multiPredictDict, softmax])

/-- C4: whenever no model is loaded, `ModelInference.predict` raises
`RuntimeError` (the check runs on every call since it heads the function
body); at the HTTP layer, `GET /health` answers status `degraded` with
`model_loaded = false`, and both prediction endpoints answer HTTP 503 with a
detail containing (here: starting with) "Model not loaded", leaving the log
untouched; totality of the handler embeddings models that the process keeps
serving rather than terminating. -/
theorem model_not_loaded_contract (p t : ℚ) (input : Except String ℚ)
    (fs : LogFS) (now : String) :
    ModelInference.predict false p =
      .error "Model not loaded. Call load_model() first." ∧
    (health_check false now).status = "degraded" ∧
    (health_check false now).model_loaded = false ∧
    (predictEndpoint false input t fs).1 =
      .err 503 "Model not loaded. Please try again later." ∧
    (predictBase64Endpoint false input t fs).1 =
      .err 503 "Model not loaded. Please try again later." ∧
    "Model not loaded. Please try again later." =
      "Model not loaded" ++ ". Please try again later." ∧
    (predictEndpoint false input t fs).2 = fs := by
  refine ⟨rfl, rfl, rfl, ?_, ?_, rfl, ?_⟩ <;>
    simp [predictEndpoint, predictBase64Endpoint]

/-- C5 counterexample: with a loaded model, a malformed base64 payload (or an
undecodable image) makes `POST /predict-base64` answer HTTP 500 — a server
error, not a client error (4xx) as the claim states. -/
theorem base64_malformed_gives_500_not_4xx :
    (predictBase64Endpoint true
        (.error "Invalid base64-encoded string") 0 ⟨true, []⟩).1 =
      .err 500 "Prediction failed: Invalid base64-encoded string" ∧
    ¬ (400 ≤ 500 ∧ 500 < 500) := by
  exact ⟨rfl, by decide⟩

/-- C5 amended: a numeric-array input of wrong shape is rejected by the
digit-variant schema validation with HTTP 422 before any model or Predictor
is consulted (the response does not depend on `ml` or `result`); in the
Cats-vs-Dogs service, an undecodable image or invalid base64 string is caught
and answered with HTTP 500 (or 503 when no model is loaded) — an error
response in every case, never an unhandled crash. -/
theorem malformed_input_amended (img : DigitImage) (ml : Bool)
    (result : MultiResult) (t : ℚ) (msg : String) (fs : LogFS) (t2 : ℚ)
    (hbad : digitShapeOk img = false) :
    digitPredictEndpoint img ml result t =
      .err 422 "Input image must have shape 28x28 or be a flat array of 784 values" ∧
    (predictBase64Endpoint true (.error msg) t2 fs).1 =
      .err 500 ("Prediction failed: " ++ msg) ∧
    (predictBase64Endpoint false (.error msg) t2 fs).1 =
      .err 503 "Model not loaded. Please try again later." := by
  refine ⟨?_, ?_, ?_⟩ <;>
    simp [digitPredictEndpoint, hbad, predictBase64Endpoint]

/-- Witness for the amended C5 at a 20×20 array (the spec's scenario), an
arbitrary mocked predictor result and a concrete bad-base64 message. -/
theorem malformed_input_amended_witness :
    digitPredictEndpoint (.nested (List.replicate 20 (List.replicate 20 0)))
        true ⟨0, [], 0⟩ 0 =
      .err 422 "Input image must have shape 28x28 or be a flat array of 784 values" ∧
    (predictBase64Endpoint true (.error "Invalid base64") 0 ⟨true, []⟩).1 =
      .err 500 ("Prediction failed: " ++ "Invalid base64") ∧
    (predictBase64Endpoint false (.error "Invalid base64") 0 ⟨true, []⟩).1 =
      .err 503 "Model not loaded. Please try again later." :=
  malformed_input_amended (.nested (List.replicate 20 (List.replicate 20 0)))
    true ⟨0, [], 0⟩ 0 "Invalid base64" ⟨true, []⟩ 0 (by decide)

/-- C6: for every successful prediction, a failing log append (unwritable
log: `writable = false`) is swallowed: the log file is left unchanged, and
the HTTP response is the same successful response as when logging succeeds
(which appends exactly one record). -/
theorem logging_failure_keeps_response (p t : ℚ) (lg : List LogEntry) :
    (predictEndpoint true (.ok p) t ⟨false, lg⟩).1 =
      (predictEndpoint true (.ok p) t ⟨true, lg⟩).1 ∧
    (predictEndpoint true (.ok p) t ⟨false, lg⟩).2.log = lg ∧
    (predictEndpoint true (.ok p) t ⟨true, lg⟩).2.log =
      lg ++ [{ prediction := ((binaryPredictDict p).prediction : ℤ)
               prediction_label := (binaryPredictDict p).prediction_label
               confidence := (binaryPredictDict p).confidence
               inference_time_ms := t }] ∧
    (predictEndpoint true (.ok p) t ⟨false, lg⟩).1 =
      .ok { prediction := (binaryPredictDict p).prediction
            prediction_label := (binaryPredictDict p).prediction_label
            probCat := (binaryPredictDict p).probCat
            probDog := (binaryPredictDict p).probDog
            confidence := (binaryPredictDict p).confidence
            inference_time_ms := t } := by
  refine ⟨?_, ?_, ?_, ?_⟩ <;>
    simp [predictEndpoint, log_prediction_to_file]

/-- C7: the stats computation scans line by line and each malformed line is
skipped individually without aborting the scan (removing one malformed line
anywhere leaves the result unchanged); when the log file is absent, empty, or
every line is malformed, `GET /stats` returns zeroed aggregates rather than
an error. -/
theorem stats_skip_and_zero (lines pre post : List LogLine)
    (hbad : ∀ l ∈ lines, l = LogLine.bad) :
    get_stats none = ⟨0, 0, 0, []⟩ ∧
    get_stats (some []) = ⟨0, 0, 0, []⟩ ∧
    get_stats (some lines) = ⟨0, 0, 0, []⟩ ∧
    read_prediction_stats (some (pre ++ LogLine.bad :: post)) =
      read_prediction_stats (some (pre ++ post)) := by
  refine ⟨rfl, rfl, ?_, ?_⟩
  · have hnil : goodEntries lines = [] := by
      refine List.filterMap_eq_nil_iff.mpr ?_
      intro l hl
      rw [hbad l hl]
    simp [get_stats, read_prediction_stats, hnil]
  · simp [read_prediction_stats, goodEntries]

/-- Witness for C7 at an all-malformed log `[bad]` and a malformed line
sitting between two well-formed records. -/
theorem stats_skip_and_zero_witness :
    get_stats none = ⟨0, 0, 0, []⟩ ∧
    get_stats (some []) = ⟨0, 0, 0, []⟩ ∧
    get_stats (some [LogLine.bad]) = ⟨0, 0, 0, []⟩ ∧
    read_prediction_stats
        (some ([LogLine.good ⟨1, "Dog", 9/10, 5⟩] ++
          LogLine.bad :: [LogLine.good ⟨0, "Cat", 3/5, 7⟩])) =
      read_prediction_stats
        (some ([LogLine.good ⟨1, "Dog", 9/10, 5⟩] ++
          [LogLine.good ⟨0, "Cat", 3/5, 7⟩])) :=
  stats_skip_and_zero [LogLine.bad]
    [LogLine.good ⟨1, "Dog", 9/10, 5⟩] [LogLine.good ⟨0, "Cat", 3/5, 7⟩]
    (by intro l hl; simpa using List.mem_singleton.mp hl)

/-- C8: the JSON record appended for a successful prediction, when re-read by
the stats path, reproduces exactly the `prediction`, `confidence` and
`inference_time_ms` values that were written (and the label); accordingly the
stats over a single-record log report exactly the written confidence and
latency. -/
theorem log_record_roundtrip (ts : String) (e : LogEntry) :
    readEntryFields (logEntryJson ts e) =
      some (e.prediction, e.prediction_label, e.confidence, e.inference_time_ms) ∧
    get_stats (some [LogLine.good e]) =
      ⟨1, e.confidence, e.inference_time_ms, [(e.prediction_label, 1)]⟩ := by
  constructor
  · rfl
  · simp [get_stats, read_prediction_stats, goodEntries, bumpCount]

/-- C9: the canvas-drawing preprocessing (grayscale, resize to 28×28, invert)
maps the all-white 28×28 input to the all-zero raw (pre-normalize) tensor,
not the all-max one. -/
theorem canvas_white_inverts_to_zero :
    canvasPreprocessRaw whiteCanvas = List.replicate 28 (List.replicate 28 0) := by
  rfl

/-- C10 counterexample: `normalize_pixel_values` is not total on every input
array — on the empty array the `min` reduction fails (numpy raises
`ValueError`, modelled as `none`); moreover with `min_val = 1 > max_val = 0`
the output `[1, 0]` of input `[0, 2]` does not lie within the stated interval
`[min_val, max_val]`. -/
theorem normalize_pixel_values_claim_false :
    normalize_pixel_values [] 0 1 = none ∧
    normalize_pixel_values [0, 2] 1 0 = some [1, 0] ∧
    ¬ (∀ y ∈ (normalize_pixel_values [0, 2] 1 0).getD [], 1 ≤ y ∧ y ≤ 0) := by
  have h2 : normalize_pixel_values [0, 2] 1 0 = some [1, 0] := by
    norm_num [normalize_pixel_values, npMin, npMax]
  refine ⟨rfl, h2, ?_⟩
  intro hall
  have := hall 0 (by rw [h2]; simp)
  linarith [this.1]

/-- C10 amended: for every nonempty input array and `min_val ≤ max_val`,
`normalize_pixel_values` returns a result of the same length; when the array
is constant (max equals min) the result is all zeros, and otherwise every
element of the result lies within `[min_val, max_val]`. On the empty array
the underlying reduction fails. -/
theorem normalize_pixel_values_amended (a : List ℚ) (min_val max_val : ℚ)
    (ha : a ≠ []) (hmm : min_val ≤ max_val) :
    ∃ r, normalize_pixel_values a min_val max_val = some r ∧
      r.length = a.length ∧
      ((npMax a).getD 0 = (npMin a).getD 0 → r = a.map (fun _ => 0)) ∧
      ((npMax a).getD 0 ≠ (npMin a).getD 0 →
        ∀ y ∈ r, min_val ≤ y ∧ y ≤ max_val) := by
  cases a with
  | nil => exact absurd rfl ha
  | cons x xs =>
    have hmin : npMin (x :: xs) = some (xs.foldl min x) := rfl
    have hmax : npMax (x :: xs) = some (xs.foldl max x) := rfl
    by_cases hc : xs.foldl max x - xs.foldl min x = 0
    · refine ⟨(x :: xs).map (fun _ => 0), ?_, by simp, fun _ => rfl, ?_⟩
      · simp [normalize_pixel_values, hmin, hmax, hc]
      · intro hne
        exact absurd (by simpa [hmin, hmax] using sub_eq_zero.mp hc) hne
    · refine ⟨(x :: xs).map (fun v =>
        (v - xs.foldl min x) / (xs.foldl max x - xs.foldl min x) *
          (max_val - min_val) + min_val), ?_, by simp, ?_, ?_⟩
      · simp [normalize_pixel_values, hmin, hmax, hc]
      · intro heq
        exact absurd (sub_eq_zero.mpr (by simpa [hmin, hmax] using heq)) hc
      · intro _ y hy
        rcases List.mem_map.mp hy with ⟨v, hv, rfl⟩
        have h1 : xs.foldl min x ≤ v := npMin_le (x :: xs) _ hmin v hv
        have h2 : v ≤ xs.foldl max x := le_npMax (x :: xs) _ hmax v hv
        have hle : xs.foldl min x ≤ xs.foldl max x :=
          le_trans (foldl_min_le_init xs x) (init_le_foldl_max xs x)
        have hlt : xs.foldl min x < xs.foldl max x :=
          lt_of_le_of_ne hle (fun h => hc (by rw [h]; ring))
        have ht0 : 0 ≤ (v - xs.foldl min x) / (xs.foldl max x - xs.foldl min x) :=
          div_nonneg (by linarith) (by linarith)
        have ht1 : (v - xs.foldl min x) / (xs.foldl max x - xs.foldl min x) ≤ 1 := by
          rw [div_le_one (by linarith)]
          linarith
        have hA : 0 ≤ (v - xs.foldl min x) / (xs.foldl max x - xs.foldl min x) *
            (max_val - min_val) := mul_nonneg ht0 (by linarith)
        have hB : (v - xs.foldl min x) / (xs.foldl max x - xs.foldl min x) *
            (max_val - min_val) ≤ max_val - min_val := by
          have := mul_le_mul_of_nonneg_right ht1
            (show (0:ℚ) ≤ max_val - min_val by linarith)
          simpa using this
        exact ⟨by linarith, by linarith⟩

/-- Witness for the amended C10 at the nonconstant array `[1, 3]` normalized
to `[0, 1]`. -/
theorem normalize_pixel_values_amended_witness :
    ∃ r, normalize_pixel_values [1, 3] 0 1 = some r ∧
      r.length = ([1, 3] : List ℚ).length ∧
      ((npMax [1, 3]).getD 0 = (npMin [1, 3]).getD 0 →
        r = ([1, 3] : List ℚ).map (fun _ => 0)) ∧
      ((npMax [1, 3]).getD 0 ≠ (npMin [1, 3]).getD 0 →
        ∀ y ∈ r, 0 ≤ y ∧ y ≤ 1) :=
  normalize_pixel_values_amended [1, 3] 0 1 (by simp) (by norm_num)
